import Mathlib

/-!
Verification of the strava-webgl-viz track-overlap geometry engine
(`public/app.js`), shallowly embedded in Lean 4.

Modelling conventions:
* JS `number` arithmetic is embedded as `ℚ` (the claims under check are
  about exact arithmetic; none depends on float rounding).
* `Math.floor` on a `ℚ` is `Int.floor`.
* The JS `Map<string, Set<number>>` grid keyed by the string `"gx_gy"` is
  embedded as a function `Int × Int → Finset ℕ` (the string key is a
  bijective encoding of the integer pair).
* `Math.sqrt` is irrational, so the picker's point-to-segment distance is
  embedded squared (`distancePointToSegmentSq`) and compared against the
  squared tolerance; `sqrt` is strictly monotone on nonnegatives, so every
  comparison made by the source is preserved exactly.
-/

/-- `GLOBAL_SCALE = 50000` from app.js. -/
def GLOBAL_SCALE : ℚ := 50000

/-- `OVERLAP_PROXIMITY_ABSTRACT = 10` from app.js. -/
def OVERLAP_PROXIMITY_ABSTRACT : ℚ := 10

/-- `GRID_CELL_SIZE = OVERLAP_PROXIMITY_ABSTRACT` from app.js. -/
def GRID_CELL_SIZE : ℚ := OVERLAP_PROXIMITY_ABSTRACT

/-- `CLICK_SENSITIVITY_PIXELS = 10` from app.js. -/
def CLICK_SENSITIVITY_PIXELS : ℚ := 10

/-- `NON_OVERLAP_THICKNESS = 2.0` from app.js. -/
def NON_OVERLAP_THICKNESS : ℚ := 2

/-- `MIN_OVERLAP_THICKNESS_START = 4.0` from app.js. -/
def MIN_OVERLAP_THICKNESS_START : ℚ := 4

/-- `MAX_OVERLAP_THICKNESS = 20.0` from app.js. -/
def MAX_OVERLAP_THICKNESS : ℚ := 20

/-- `MIN_OVERLAPS_FOR_EFFECT_START = 2` from app.js. -/
def MIN_OVERLAPS_FOR_EFFECT_START : ℚ := 2

/-- `MAX_OVERLAPS_FOR_FULL_EFFECT = 5` from app.js. -/
def MAX_OVERLAPS_FOR_FULL_EFFECT : ℚ := 5

/-- `NO_OVERLAP_TRACK_COLOR_RGB = [0, 0, 0]` (black) from app.js. -/
def NO_OVERLAP_TRACK_COLOR_RGB : ℚ × ℚ × ℚ := (0, 0, 0)

/-- `MAX_OVERLAP_TRACK_COLOR_RGB = [1, 0, 0]` (red) from app.js. -/
def MAX_OVERLAP_TRACK_COLOR_RGB : ℚ × ℚ × ℚ := (1, 0, 0)

/-- A raw stream point `{lat, lon}` (app.js `originalPoints` entries). -/
structure LatLng where
  lat : ℚ
  lon : ℚ
deriving DecidableEq, Repr

/-- A planar point `{x, y}` in abstract world units. -/
@[ext]
structure Pt where
  x : ℚ
  y : ℚ
deriving DecidableEq, Repr

/-- The part of an activity summary the geometry core reads: `activity.id`
and the lowercased `activity.type`. -/
structure ActivityInfo where
  id : ℕ
  type : String
deriving DecidableEq, Repr

/-- One resolved entry of `resolvedStreams`: the activity summary plus the
fetched `streams.latlng.data`. -/
structure StreamData where
  activityInfo : ActivityInfo
  latlngStream : List LatLng
deriving DecidableEq, Repr

/-- One entry of `track.segmentsWithOverlap`: `{ p1, p2, overlapCount }`. -/
structure Seg where
  p1 : Pt
  p2 : Pt
  overlapCount : ℕ
deriving DecidableEq, Repr

/-- One entry of `allTracksData` (the per-track processing record built by
`processStravaData`): Strava id, internal sequential id, lowercased type,
the translated/scaled points, and the classified segments. -/
structure TrackData where
  id : ℕ
  internalId : ℕ
  type : String
  translatedPoints : List Pt
  segmentsWithOverlap : List Seg
deriving DecidableEq, Repr

/-- The normalization step inside `processStravaData`:
`translatedScaledPoints = originalPoints.map(p => ({x: (p.lon - firstPoint.lon) * GLOBAL_SCALE, y: -(p.lat - firstPoint.lat) * GLOBAL_SCALE}))`
with `firstPoint = originalPoints[0]`. -/
def translateScale : List LatLng → List Pt
  | [] => []
  | firstPoint :: rest =>
      (firstPoint :: rest).map fun p =>
        ⟨(p.lon - firstPoint.lon) * GLOBAL_SCALE,
         -(p.lat - firstPoint.lat) * GLOBAL_SCALE⟩

/-- `pointPresenceGrid`: cell key (pair of floors) to set of internal track
ids. -/
def Grid : Type := Int × Int → Finset ℕ

/-- The fresh `new Map()` grid. -/
def emptyGrid : Grid := fun _ => ∅

/-- `const gridX = Math.floor(tp.x / GRID_CELL_SIZE); const gridY = Math.floor(tp.y / GRID_CELL_SIZE)`. -/
def cellKey (p : Pt) : Int × Int :=
  (⌊p.x / GRID_CELL_SIZE⌋, ⌊p.y / GRID_CELL_SIZE⌋)

/-- `pointPresenceGrid.get(key).add(trackInternalId)` (creating the set if
the key is absent). -/
def insertGrid (g : Grid) (c : Int × Int) (tid : ℕ) : Grid :=
  fun c' => if c' = c then insert tid (g c') else g c'

/-- The `translatedScaledPoints.forEach` loop of `processStravaData` that
populates `pointPresenceGrid` with one track's points. -/
def insertTrackPoints (g : Grid) (tid : ℕ) (pts : List Pt) : Grid :=
  pts.foldl (fun g' tp => insertGrid g' (cellKey tp) tid) g

/-- The body of `processStravaData`'s `forEach` for a single stream entry at
array index `idx`:
skip when `latlngStream.length < 2`, otherwise translate/scale the points,
append the track record (with `internalId = idx` and an empty
`segmentsWithOverlap`) and populate the grid. -/
def processOne (idx : ℕ) (acc : List TrackData × Grid) (sd : StreamData) :
    List TrackData × Grid :=
  if sd.latlngStream.length < 2 then acc
  else
    (acc.1 ++ [⟨sd.activityInfo.id, idx, sd.activityInfo.type,
                translateScale sd.latlngStream, []⟩],
     insertTrackPoints acc.2 idx (translateScale sd.latlngStream))

/-- `processStravaData`'s `forEach` with its running array index. -/
def processFrom (idx : ℕ) (acc : List TrackData × Grid) :
    List StreamData → List TrackData × Grid
  | [] => acc
  | sd :: rest => processFrom (idx + 1) (processOne idx acc sd) rest

/-- `processStravaData(streamDataArray)`: builds `allTracksData` (segments
still empty) and `pointPresenceGrid` from scratch. -/
def processStravaData (arr : List StreamData) : List TrackData × Grid :=
  processFrom 0 ([], emptyGrid) arr

/-- The 3x3 neighborhood union of `getOverlapCountForPoint`: the `dx`/`dy`
double loop over `-1..1` unioning the grid sets at `(gridX+dx, gridY+dy)`. -/
def queryBlock (g : Grid) (c : Int × Int) : Finset ℕ :=
  (Finset.Icc (-1 : ℤ) 1 ×ˢ Finset.Icc (-1 : ℤ) 1).biUnion
    fun d => g (c.1 + d.1, c.2 + d.2)

/-- `getOverlapCountForPoint(abstractScaledPoint, currentTrackInternalId)`:
size of the set of distinct internal track ids found in the 3x3 cell block
around the query point. (The disabled "exclude own track" branch is dead
code in the source: the current track is counted.) -/
def getOverlapCountForPoint (g : Grid) (p : Pt) : ℕ :=
  (queryBlock g (cellKey p)).card

/-- `const midpoint = { x: (p1.x + p2.x) / 2, y: (p1.y + p2.y) / 2 }`. -/
def midpointOf (p1 p2 : Pt) : Pt :=
  ⟨(p1.x + p2.x) / 2, (p1.y + p2.y) / 2⟩

/-- The inner `for` loop of `calculateAllSegmentOverlaps`: each consecutive
point pair becomes a segment classified at its midpoint. -/
def segmentsOf (g : Grid) (pts : List Pt) : List Seg :=
  (pts.zip pts.tail).map fun pq =>
    ⟨pq.1, pq.2, getOverlapCountForPoint g (midpointOf pq.1 pq.2)⟩

/-- `calculateAllSegmentOverlaps()`: fills `segmentsWithOverlap` for every
track of `allTracksData` by querying the grid at each segment midpoint. -/
def calculateAllSegmentOverlaps (g : Grid) (tracks : List TrackData) :
    List TrackData :=
  tracks.map fun t =>
    if t.translatedPoints.length < 2 then { t with segmentsWithOverlap := [] }
    else { t with segmentsWithOverlap := segmentsOf g t.translatedPoints }

/-- The load pipeline after streams resolve:
`processStravaData(resolvedStreams); calculateAllSegmentOverlaps();`
returning the classified tracks and the populated grid. -/
def loadDataset (arr : List StreamData) : List TrackData × Grid :=
  let (tracks, g) := processStravaData arr
  (calculateAllSegmentOverlaps g tracks, g)

/-! ### Basic facts about the normalizer and the load pipeline -/

/-- On a nonempty stream, `translateScale` is the map recorded in the
source, anchored at the first stream point. -/
theorem translateScale_cons (p0 : LatLng) (ps : List LatLng) :
    translateScale (p0 :: ps) =
      (p0 :: ps).map fun p =>
        ⟨(p.lon - p0.lon) * GLOBAL_SCALE, -(p.lat - p0.lat) * GLOBAL_SCALE⟩ :=
  rfl

/-- The first normalized point is exactly the origin. -/
theorem translateScale_head (p0 : LatLng) (ps : List LatLng) :
    (translateScale (p0 :: ps)).head? = some ⟨0, 0⟩ := by
  simp [translateScale_cons, Pt.ext_iff]

/-- Every track record produced by `processStravaData`'s loop either was in
the accumulator already or comes from a stream of the input list with at
least 2 points, carrying that stream's translated points and an empty
segment list. -/
theorem processFrom_mem_tracks (arr : List StreamData) :
    ∀ (idx : ℕ) (acc : List TrackData × Grid) (t : TrackData),
      t ∈ (processFrom idx acc arr).1 →
      t ∈ acc.1 ∨ ∃ sd ∈ arr, 2 ≤ sd.latlngStream.length ∧
        t.translatedPoints = translateScale sd.latlngStream ∧
        t.id = sd.activityInfo.id ∧ t.type = sd.activityInfo.type := by
  induction arr with
  | nil => intro idx acc t h; exact Or.inl h
  | cons sd rest ih =>
    intro idx acc t h
    rcases ih (idx + 1) (processOne idx acc sd) t h with h' | ⟨sd', hsd', hlen, hpts⟩
    · unfold processOne at h'
      by_cases hskip : sd.latlngStream.length < 2
      · rw [if_pos hskip] at h'
        exact Or.inl h'
      · rw [if_neg hskip] at h'
        simp only [List.mem_append, List.mem_singleton] at h'
        rcases h' with h' | h'
        · exact Or.inl h'
        · refine Or.inr ⟨sd, List.mem_cons_self _ _, Nat.le_of_not_lt hskip, ?_⟩
          subst h'; exact ⟨rfl, rfl, rfl⟩
    · exact Or.inr ⟨sd', List.mem_cons_of_mem _ hsd', hlen, hpts⟩

/-- `calculateAllSegmentOverlaps` only fills in segments: the identity,
internal id, type and translated points of each track are untouched. -/
theorem calculateAllSegmentOverlaps_mem (g : Grid) (tracks : List TrackData)
    (t : TrackData) (h : t ∈ calculateAllSegmentOverlaps g tracks) :
    ∃ t0 ∈ tracks, t.id = t0.id ∧ t.internalId = t0.internalId ∧
      t.type = t0.type ∧ t.translatedPoints = t0.translatedPoints ∧
      t.segmentsWithOverlap =
        (if t0.translatedPoints.length < 2 then []
         else segmentsOf g t0.translatedPoints) := by
  unfold calculateAllSegmentOverlaps at h
  rcases List.mem_map.1 h with ⟨t0, ht0, hupd⟩
  refine ⟨t0, ht0, ?_⟩
  by_cases hlen : t0.translatedPoints.length < 2
  · rw [if_pos hlen] at hupd; subst hupd; simp [hlen]
  · rw [if_neg hlen] at hupd; subst hupd; simp [hlen]

/-- The stream a normalized track came from, as named by claim C1: at least
2 raw points, the track's points are its translate-and-scale image, the
first normalized point is the origin, and every raw point `(lat, lon)` maps
to `((lon - lon0) * GLOBAL_SCALE, -(lat - lat0) * GLOBAL_SCALE)` where
`(lat0, lon0)` is the stream's first point. -/
def NormalizedFromStream (arr : List StreamData) (t : TrackData) : Prop :=
  ∃ sd ∈ arr, 2 ≤ sd.latlngStream.length ∧
    t.translatedPoints = translateScale sd.latlngStream ∧
    t.translatedPoints.head? = some ⟨0, 0⟩ ∧
    ∀ p0 ps, sd.latlngStream = p0 :: ps →
      t.translatedPoints = sd.latlngStream.map fun p =>
        ⟨(p.lon - p0.lon) * GLOBAL_SCALE, -(p.lat - p0.lat) * GLOBAL_SCALE⟩

/-- C1: every track built by a dataset load from a raw latlng stream with
at least 2 points has its first normalized point exactly at `(0, 0)`, and
each stream point `(lat, lon)` is normalized to
`x = (lon - lon0) * GLOBAL_SCALE`, `y = -(lat - lat0) * GLOBAL_SCALE`
where `(lat0, lon0)` is the stream's first point. -/
theorem tracks_normalize_first_point_to_origin
    (arr : List StreamData) (t : TrackData) (h : t ∈ (loadDataset arr).1) :
    NormalizedFromStream arr t := by
  unfold loadDataset at h
  rcases calculateAllSegmentOverlaps_mem _ _ _ h with
    ⟨t0, ht0, _, _, _, hpts, _⟩
  rcases processFrom_mem_tracks arr 0 ([], emptyGrid) t0 ht0 with
    h0 | ⟨sd, hsd, hlen, htp, _, _⟩
  · exact absurd h0 (List.not_mem_nil t0)
  · refine ⟨sd, hsd, hlen, hpts.trans htp, ?_, ?_⟩
    · rcases hs : sd.latlngStream with _ | ⟨p0, ps⟩
      · rw [hs] at hlen; simp at hlen
      · rw [hpts, htp, hs, translateScale_head]
    · intro p0 ps hstream
      rw [hpts, htp, hstream, translateScale_cons]

/-- A concrete one-activity dataset: one "run" with two raw points,
normalizing to `(0,0)` and `(1,0)`. -/
def exStreams : List StreamData :=
  [⟨⟨1, "run"⟩, [⟨0, 0⟩, ⟨0, 1/50000⟩]⟩]

/-- The track `loadDataset exStreams` produces. -/
def exTrack : TrackData :=
  ⟨1, 0, "run", [⟨0, 0⟩, ⟨1, 0⟩], [⟨⟨0, 0⟩, ⟨1, 0⟩, 1⟩]⟩

/-- Witness for C1 at the concrete dataset `exStreams`. -/
theorem tracks_normalize_first_point_to_origin_witness :
    exTrack ∈ (loadDataset exStreams).1 ∧
      NormalizedFromStream exStreams exTrack :=
  ⟨by with_unfolding_all decide,
   tracks_normalize_first_point_to_origin exStreams exTrack
     (by with_unfolding_all decide)⟩

/-! ### The overlap grid: insertion and the membership invariant -/

/-- Membership after one grid insertion. -/
theorem insertGrid_mem (g : Grid) (c : Int × Int) (tid i : ℕ)
    (c' : Int × Int) :
    i ∈ insertGrid g c tid c' ↔ i ∈ g c' ∨ (i = tid ∧ c' = c) := by
  unfold insertGrid
  by_cases h : c' = c
  · subst h; simp [Finset.mem_insert]; tauto
  · simp [h]

/-- Membership after inserting all points of one track. -/
theorem insertTrackPoints_mem (tid : ℕ) (pts : List Pt) :
    ∀ (g : Grid) (i : ℕ) (c : Int × Int),
      i ∈ insertTrackPoints g tid pts c ↔
        i ∈ g c ∨ (i = tid ∧ ∃ p ∈ pts, cellKey p = c) := by
  induction pts with
  | nil => intro g i c; simp [insertTrackPoints]
  | cons p rest ih =>
    intro g i c
    have hstep : insertTrackPoints g tid (p :: rest) =
        insertTrackPoints (insertGrid g (cellKey p) tid) tid rest := rfl
    rw [hstep, ih, insertGrid_mem]
    constructor
    · rintro ((h | ⟨rfl, hc⟩) | ⟨rfl, q, hq, hc⟩)
      · exact Or.inl h
      · exact Or.inr ⟨rfl, p, List.mem_cons_self _ _, hc.symm⟩
      · exact Or.inr ⟨rfl, q, List.mem_cons_of_mem _ hq, hc⟩
    · rintro (h | ⟨rfl, q, hq, hc⟩)
      · exact Or.inl (Or.inl h)
      · rcases List.mem_cons.1 hq with rfl | hq'
        · exact Or.inl (Or.inr ⟨rfl, hc.symm⟩)
        · exact Or.inr ⟨rfl, q, hq', hc⟩

/-- The grid/track invariant of claim C3, for an intermediate state of
`processStravaData`'s loop: an internal id sits in a cell's set exactly when
one of that track's translated points falls in that cell. -/
def GridMatches (acc : List TrackData × Grid) : Prop :=
  ∀ (i : ℕ) (c : Int × Int),
    i ∈ acc.2 c ↔
      ∃ t ∈ acc.1, t.internalId = i ∧ ∃ p ∈ t.translatedPoints, cellKey p = c

/-- One `forEach` iteration of `processStravaData` preserves the grid/track
invariant. -/
theorem processOne_gridMatches (idx : ℕ) (acc : List TrackData × Grid)
    (sd : StreamData) (h : GridMatches acc) :
    GridMatches (processOne idx acc sd) := by
  unfold processOne
  by_cases hskip : sd.latlngStream.length < 2
  · rw [if_pos hskip]; exact h
  · rw [if_neg hskip]
    intro i c
    rw [show ((acc.1 ++ [⟨sd.activityInfo.id, idx, sd.activityInfo.type,
          translateScale sd.latlngStream, []⟩],
        insertTrackPoints acc.2 idx (translateScale sd.latlngStream)) :
          List TrackData × Grid).2 =
        insertTrackPoints acc.2 idx (translateScale sd.latlngStream) from rfl]
    rw [insertTrackPoints_mem, h i c]
    constructor
    · rintro (⟨t, ht, hti, hp⟩ | ⟨hi, p, hp, hc⟩)
      · exact ⟨t, List.mem_append_left _ ht, hti, hp⟩
      · exact ⟨⟨sd.activityInfo.id, idx, sd.activityInfo.type,
          translateScale sd.latlngStream, []⟩,
          List.mem_append_right _ (List.mem_singleton.2 rfl), hi.symm, p, hp, hc⟩
    · rintro ⟨t, ht, hti, p, hp, hc⟩
      rcases List.mem_append.1 ht with ht' | ht'
      · exact Or.inl ⟨t, ht', hti, p, hp, hc⟩
      · rw [List.mem_singleton] at ht'
        subst ht'
        exact Or.inr ⟨hti.symm, p, hp, hc⟩

/-- The whole loop of `processStravaData` preserves the grid/track
invariant. -/
theorem processFrom_gridMatches (arr : List StreamData) :
    ∀ (idx : ℕ) (acc : List TrackData × Grid), GridMatches acc →
      GridMatches (processFrom idx acc arr) := by
  induction arr with
  | nil => intro idx acc h; exact h
  | cons sd rest ih =>
    intro idx acc h
    exact ih (idx + 1) (processOne idx acc sd) (processOne_gridMatches idx acc sd h)

/-- `calculateAllSegmentOverlaps` preserves the internal id and the
translated points of each track, so any property of those fields transfers
between the classified track list and the processed one. -/
theorem calculateAllSegmentOverlaps_exists_iff (g : Grid)
    (tracks : List TrackData) (P : ℕ → List Pt → Prop) :
    (∃ t ∈ calculateAllSegmentOverlaps g tracks,
        P t.internalId t.translatedPoints) ↔
      ∃ t ∈ tracks, P t.internalId t.translatedPoints := by
  unfold calculateAllSegmentOverlaps
  constructor
  · rintro ⟨t, ht, hP⟩
    rcases List.mem_map.1 ht with ⟨t0, ht0, hupd⟩
    refine ⟨t0, ht0, ?_⟩
    by_cases hlen : t0.translatedPoints.length < 2
    · rw [if_pos hlen] at hupd; rw [← hupd] at hP; exact hP
    · rw [if_neg hlen] at hupd; rw [← hupd] at hP; exact hP
  · rintro ⟨t0, ht0, hP⟩
    by_cases hlen : t0.translatedPoints.length < 2
    · exact ⟨_, List.mem_map.2 ⟨t0, ht0, rfl⟩, by rw [if_pos hlen]; exact hP⟩
    · exact ⟨_, List.mem_map.2 ⟨t0, ht0, rfl⟩, by rw [if_neg hlen]; exact hP⟩

/-- C3: after a dataset load, a track's internal id appears in the set at
grid cell `(gx, gy)` iff one of its normalized points `(x, y)` has
`floor(x / GRID_CELL_SIZE) = gx` and `floor(y / GRID_CELL_SIZE) = gy`; and
inserting the same `(cell, track)` pair twice leaves the grid unchanged. -/
theorem grid_membership_iff_point_in_cell :
    (∀ (arr : List StreamData) (i : ℕ) (gx gy : ℤ),
      i ∈ (loadDataset arr).2 (gx, gy) ↔
        ∃ t ∈ (loadDataset arr).1, t.internalId = i ∧
          ∃ p ∈ t.translatedPoints,
            ⌊p.x / GRID_CELL_SIZE⌋ = gx ∧ ⌊p.y / GRID_CELL_SIZE⌋ = gy) ∧
    (∀ (g : Grid) (c : Int × Int) (tid : ℕ),
      insertGrid (insertGrid g c tid) c tid = insertGrid g c tid) := by
  constructor
  · intro arr i gx gy
    have hbase : GridMatches ([], emptyGrid) := by
      intro j c
      constructor
      · intro hj; exact absurd hj (Finset.not_mem_empty j)
      · rintro ⟨t, ht, _⟩; exact absurd ht (List.not_mem_nil t)
    have hmatch : GridMatches (processStravaData arr) :=
      processFrom_gridMatches arr 0 ([], emptyGrid) hbase
    have hload : (loadDataset arr).2 = (processStravaData arr).2 := rfl
    have htracks : (loadDataset arr).1 =
        calculateAllSegmentOverlaps (processStravaData arr).2
          (processStravaData arr).1 := rfl
    rw [hload, hmatch i (gx, gy), htracks]
    rw [calculateAllSegmentOverlaps_exists_iff (processStravaData arr).2
      (processStravaData arr).1
      (fun n pts => n = i ∧ ∃ p ∈ pts,
        ⌊p.x / GRID_CELL_SIZE⌋ = gx ∧ ⌊p.y / GRID_CELL_SIZE⌋ = gy)]
    constructor
    · rintro ⟨t, ht, hti, p, hp, hc⟩
      refine ⟨t, ht, hti, p, hp, ?_, ?_⟩
      · exact congrArg Prod.fst hc
      · exact congrArg Prod.snd hc
    · rintro ⟨t, ht, hti, p, hp, hgx, hgy⟩
      exact ⟨t, ht, hti, p, hp, Prod.ext hgx hgy⟩
  · intro g c tid
    funext c'
    unfold insertGrid
    by_cases h : c' = c
    · simp [h]
    · simp [h]

/-! ### Claim C2: segment overlap counts -/

/-- Every classified segment's endpoints are consecutive track points, and
its count is the grid query at its midpoint. -/
theorem segmentsOf_mem (g : Grid) (pts : List Pt) (s : Seg)
    (h : s ∈ segmentsOf g pts) :
    s.p1 ∈ pts ∧ s.p2 ∈ pts ∧
      s.overlapCount = getOverlapCountForPoint g (midpointOf s.p1 s.p2) := by
  unfold segmentsOf at h
  rcases List.mem_map.1 h with ⟨pq, hpq, hs⟩
  have h1 := (List.of_mem_zip hpq).1
  have h2 := List.mem_of_mem_tail (List.of_mem_zip hpq).2
  subst hs
  exact ⟨h1, h2, rfl⟩

/-- Membership in the 3x3 block query. -/
theorem queryBlock_mem (g : Grid) (c : Int × Int) (i : ℕ) :
    i ∈ queryBlock g c ↔
      ∃ dx dy : ℤ, |dx| ≤ 1 ∧ |dy| ≤ 1 ∧ i ∈ g (c.1 + dx, c.2 + dy) := by
  unfold queryBlock
  rw [Finset.mem_biUnion]
  constructor
  · rintro ⟨d, hd, hig⟩
    rw [Finset.mem_product, Finset.mem_Icc, Finset.mem_Icc] at hd
    exact ⟨d.1, d.2, abs_le.2 hd.1, abs_le.2 hd.2, hig⟩
  · rintro ⟨dx, dy, hdx, hdy, hig⟩
    refine ⟨(dx, dy), ?_, hig⟩
    rw [Finset.mem_product, Finset.mem_Icc, Finset.mem_Icc]
    exact ⟨abs_le.1 hdx, abs_le.1 hdy⟩

/-- A one-activity dataset whose single segment is 10 grid cells long: the
raw stream `[(0,0), (0, 1/500)]` normalizes to `(0,0)` and `(100,0)`, the
segment midpoint `(50,0)` lands in cell `(5,0)`, and no track point lies in
the 3x3 block around that cell. -/
def exStreamsFar : List StreamData :=
  [⟨⟨1, "run"⟩, [⟨0, 0⟩, ⟨0, 1/500⟩]⟩]

/-- Counterexample to C2 as stated: on the loaded dataset `exStreamsFar`
some classified segment has `overlapCount = 0 < 1` (its midpoint's 3x3 cell
block contains no track point because the segment spans 10 cells). -/
theorem overlapCount_ge_one_counterexample :
    ¬ (∀ t ∈ (loadDataset exStreamsFar).1,
        ∀ s ∈ t.segmentsWithOverlap, 1 ≤ s.overlapCount) := by
  with_unfolding_all decide

/-- C2 (amended): a classified segment's `overlapCount` is at least 1
whenever its first endpoint's grid cell lies within the 3x3 block around
its midpoint's grid cell (the segment's own track is then found there). -/
theorem overlapCount_pos_of_endpoint_near_midpoint
    (arr : List StreamData) (t : TrackData) (s : Seg)
    (ht : t ∈ (loadDataset arr).1) (hs : s ∈ t.segmentsWithOverlap)
    (hnear : |(cellKey s.p1).1 - (cellKey (midpointOf s.p1 s.p2)).1| ≤ 1 ∧
             |(cellKey s.p1).2 - (cellKey (midpointOf s.p1 s.p2)).2| ≤ 1) :
    1 ≤ s.overlapCount := by
  rcases calculateAllSegmentOverlaps_mem _ _ _ ht with
    ⟨t0, ht0, _, _, _, _, hsegs⟩
  by_cases hlen : t0.translatedPoints.length < 2
  · rw [if_pos hlen] at hsegs
    rw [hsegs] at hs
    exact absurd hs (List.not_mem_nil s)
  · rw [if_neg hlen] at hsegs
    rw [hsegs] at hs
    rcases segmentsOf_mem _ _ _ hs with ⟨hp1, _, hcount⟩
    have hbase : GridMatches ([], emptyGrid) := by
      intro j c
      constructor
      · intro hj; exact absurd hj (Finset.not_mem_empty j)
      · rintro ⟨t', ht', _⟩; exact absurd ht' (List.not_mem_nil t')
    have hmatch : GridMatches (processStravaData arr) :=
      processFrom_gridMatches arr 0 ([], emptyGrid) hbase
    have hgrid : t0.internalId ∈ (processStravaData arr).2 (cellKey s.p1) :=
      (hmatch t0.internalId (cellKey s.p1)).2 ⟨t0, ht0, rfl, s.p1, hp1, rfl⟩
    have hquery : t0.internalId ∈
        queryBlock (processStravaData arr).2 (cellKey (midpointOf s.p1 s.p2)) := by
      rw [queryBlock_mem]
      refine ⟨(cellKey s.p1).1 - (cellKey (midpointOf s.p1 s.p2)).1,
              (cellKey s.p1).2 - (cellKey (midpointOf s.p1 s.p2)).2,
              hnear.1, hnear.2, ?_⟩
      have hx : (cellKey (midpointOf s.p1 s.p2)).1 +
          ((cellKey s.p1).1 - (cellKey (midpointOf s.p1 s.p2)).1) =
          (cellKey s.p1).1 := by ring
      have hy : (cellKey (midpointOf s.p1 s.p2)).2 +
          ((cellKey s.p1).2 - (cellKey (midpointOf s.p1 s.p2)).2) =
          (cellKey s.p1).2 := by ring
      rw [hx, hy]
      exact hgrid
    rw [hcount]
    exact Finset.card_pos.2 ⟨t0.internalId, hquery⟩

/-- The single classified segment of `exTrack`. -/
def exSeg : Seg := ⟨⟨0, 0⟩, ⟨1, 0⟩, 1⟩

/-- Witness for the amended C2 at the concrete dataset `exStreams`. -/
theorem overlapCount_pos_of_endpoint_near_midpoint_witness :
    exTrack ∈ (loadDataset exStreams).1 ∧
    exSeg ∈ exTrack.segmentsWithOverlap ∧
    (|(cellKey exSeg.p1).1 - (cellKey (midpointOf exSeg.p1 exSeg.p2)).1| ≤ 1 ∧
     |(cellKey exSeg.p1).2 - (cellKey (midpointOf exSeg.p1 exSeg.p2)).2| ≤ 1) ∧
    1 ≤ exSeg.overlapCount := by
  have h1 : exTrack ∈ (loadDataset exStreams).1 := by with_unfolding_all decide
  have h2 : exSeg ∈ exTrack.segmentsWithOverlap := by decide
  have h3 : |(cellKey exSeg.p1).1 - (cellKey (midpointOf exSeg.p1 exSeg.p2)).1| ≤ 1 ∧
      |(cellKey exSeg.p1).2 - (cellKey (midpointOf exSeg.p1 exSeg.p2)).2| ≤ 1 := by
    with_unfolding_all decide
  exact ⟨h1, h2, h3,
    overlapCount_pos_of_endpoint_near_midpoint exStreams exTrack exSeg h1 h2 h3⟩

/-! ### Claim C4: the style mapper -/

/-- The per-segment style computation of `prepareDataForWebGL`: thickness
and RGB color from `overlapCount`. For `overlapCount <= 1` the base
thickness and the no-overlap color; otherwise two clamped linear ramps
(thickness ramp from `MIN_OVERLAPS_FOR_EFFECT_START`, color ramp from the
reference count 1, both saturating at `MAX_OVERLAPS_FOR_FULL_EFFECT`), with
the degenerate-ramp guards of the source. -/
def segmentStyle (overlapCount : ℕ) : ℚ × (ℚ × ℚ × ℚ) :=
  if overlapCount ≤ 1 then (NON_OVERLAP_THICKNESS, NO_OVERLAP_TRACK_COLOR_RGB)
  else
    let thicknessRatio : ℚ :=
      if MAX_OVERLAPS_FOR_FULL_EFFECT > MIN_OVERLAPS_FOR_EFFECT_START then
        min 1 (max 0 (((overlapCount : ℚ) - MIN_OVERLAPS_FOR_EFFECT_START) /
          (MAX_OVERLAPS_FOR_FULL_EFFECT - MIN_OVERLAPS_FOR_EFFECT_START)))
      else if (overlapCount : ℚ) ≥ MAX_OVERLAPS_FOR_FULL_EFFECT then 1 else 0
    let thickness :=
      min MAX_OVERLAP_THICKNESS (max MIN_OVERLAP_THICKNESS_START
        (MIN_OVERLAP_THICKNESS_START + thicknessRatio *
          (MAX_OVERLAP_THICKNESS - MIN_OVERLAP_THICKNESS_START)))
    let colorRatio : ℚ :=
      if MAX_OVERLAPS_FOR_FULL_EFFECT > 1 then
        min 1 (max 0 (((overlapCount : ℚ) - 1) /
          (MAX_OVERLAPS_FOR_FULL_EFFECT - 1)))
      else if (overlapCount : ℚ) ≥ MAX_OVERLAPS_FOR_FULL_EFFECT then 1 else 0
    (thickness,
     (NO_OVERLAP_TRACK_COLOR_RGB.1 + colorRatio *
        (MAX_OVERLAP_TRACK_COLOR_RGB.1 - NO_OVERLAP_TRACK_COLOR_RGB.1),
      NO_OVERLAP_TRACK_COLOR_RGB.2.1 + colorRatio *
        (MAX_OVERLAP_TRACK_COLOR_RGB.2.1 - NO_OVERLAP_TRACK_COLOR_RGB.2.1),
      NO_OVERLAP_TRACK_COLOR_RGB.2.2 + colorRatio *
        (MAX_OVERLAP_TRACK_COLOR_RGB.2.2 - NO_OVERLAP_TRACK_COLOR_RGB.2.2)))

/-- C4: the style mapping is monotonic above the no-overlap case: for
integer counts `1 < count1 < count2 <= MAX_OVERLAPS_FOR_FULL_EFFECT`, the
thickness is non-decreasing and the red channel is non-decreasing. -/
theorem segmentStyle_monotone (count1 count2 : ℕ)
    (h1 : 1 < count1) (h12 : count1 < count2)
    (h2 : (count2 : ℚ) ≤ MAX_OVERLAPS_FOR_FULL_EFFECT) :
    (segmentStyle count1).1 ≤ (segmentStyle count2).1 ∧
      (segmentStyle count1).2.1 ≤ (segmentStyle count2).2.1 := by
  have h2n : count2 ≤ 5 := by
    have : (count2 : ℚ) ≤ 5 := h2
    exact_mod_cast this
  have h1n : count1 ≤ 4 := by omega
  interval_cases count1 <;> interval_cases count2 <;>
    exact ⟨by with_unfolding_all decide, by with_unfolding_all decide⟩

/-- Witness for C4 at counts 2 and 3. -/
theorem segmentStyle_monotone_witness :
    (1 < 2 ∧ 2 < 3 ∧ ((3 : ℕ) : ℚ) ≤ MAX_OVERLAPS_FOR_FULL_EFFECT) ∧
    ((segmentStyle 2).1 ≤ (segmentStyle 3).1 ∧
      (segmentStyle 2).2.1 ≤ (segmentStyle 3).2.1) :=
  ⟨⟨by decide, by decide, by with_unfolding_all decide⟩,
   segmentStyle_monotone 2 3 (by decide) (by decide)
     (by with_unfolding_all decide)⟩

/-! ### Claims C5 and C6: the view transform -/

/-- The view state the interaction handlers mutate: `scale`, `panX`,
`panY`. (`centerX`/`centerY` are carried in the source but never read by
the coordinate conversions.) -/
structure ViewState where
  scale : ℚ
  panX : ℚ
  panY : ℚ
deriving DecidableEq, Repr

/-- `worldToScreen(x, y) = (x*scale + panX, y*scale + panY)` (the pan
formula used by `resetViewAndFitTracks` and the zoom handler). -/
def worldToScreen (v : ViewState) (p : Pt) : Pt :=
  ⟨p.x * v.scale + v.panX, p.y * v.scale + v.panY⟩

/-- `screenToWorld(sx, sy) = ((sx - panX)/scale, (sy - panY)/scale)` (the
conversion in `handleCanvasClickForPopup` and the zoom handler). -/
def screenToWorld (v : ViewState) (p : Pt) : Pt :=
  ⟨(p.x - v.panX) / v.scale, (p.y - v.panY) / v.scale⟩

/-- C5: for scale > 0, `screenToWorld` inverts `worldToScreen` exactly. -/
theorem screenToWorld_worldToScreen_roundtrip
    (v : ViewState) (p : Pt) (hscale : 0 < v.scale) :
    screenToWorld v (worldToScreen v p) = p := by
  have hne : v.scale ≠ 0 := ne_of_gt hscale
  unfold screenToWorld worldToScreen
  ext
  · field_simp
  · field_simp

/-- Witness for C5 at scale 2, pan (3, 4), world point (5, 6). -/
theorem screenToWorld_worldToScreen_roundtrip_witness :
    (0 : ℚ) < 2 ∧
      screenToWorld ⟨2, 3, 4⟩ (worldToScreen ⟨2, 3, 4⟩ ⟨5, 6⟩) = ⟨5, 6⟩ :=
  ⟨by norm_num,
   screenToWorld_worldToScreen_roundtrip ⟨2, 3, 4⟩ ⟨5, 6⟩ (by norm_num)⟩

/-- The scale clamp of the wheel handler:
`Math.max(0.01, Math.min(scale, 100))`. -/
def clampScale (s : ℚ) : ℚ := max (1/100) (min s 100)

/-- The wheel (zoom) handler of `setupInteractions`: convert the mouse
position to world coordinates at the old scale, multiply and clamp the
scale, then recompute the pan so the world point under the mouse stays
under the mouse. -/
def zoomAt (v : ViewState) (mouseX mouseY scaleAmount : ℚ) : ViewState :=
  ⟨clampScale (v.scale * scaleAmount),
   mouseX - (mouseX - v.panX) / v.scale * clampScale (v.scale * scaleAmount),
   mouseY - (mouseY - v.panY) / v.scale * clampScale (v.scale * scaleAmount)⟩

/-- C6: zoom-at-point is anchor-preserving: for a view state whose scale is
in the clamp range and any positive zoom factor, the world point that was
under the mouse before the zoom maps exactly back to the mouse position
under the new view state. -/
theorem zoomAt_preserves_anchor
    (v : ViewState) (mouseX mouseY factor : ℚ)
    (hlo : 1/100 ≤ v.scale) (hhi : v.scale ≤ 100) (hfac : 0 < factor) :
    worldToScreen (zoomAt v mouseX mouseY factor)
        (screenToWorld v ⟨mouseX, mouseY⟩) =
      ⟨mouseX, mouseY⟩ := by
  unfold worldToScreen screenToWorld zoomAt
  ext
  · ring
  · ring

/-- Witness for C6 at scale 1, pan (0, 0), mouse (7, 8), factor 11/10. -/
theorem zoomAt_preserves_anchor_witness :
    ((1 : ℚ)/100 ≤ 1 ∧ (1 : ℚ) ≤ 100 ∧ (0 : ℚ) < 11/10) ∧
      worldToScreen (zoomAt ⟨1, 0, 0⟩ 7 8 (11/10))
          (screenToWorld ⟨1, 0, 0⟩ ⟨7, 8⟩) =
        ⟨7, 8⟩ :=
  ⟨⟨by norm_num, by norm_num, by norm_num⟩,
   zoomAt_preserves_anchor ⟨1, 0, 0⟩ 7 8 (11/10)
     (by norm_num) (by norm_num) (by norm_num)⟩

/-! ### Claim C8: filter changes rebuild buffers without reclassification -/

/-- `webGLTrackBuffers`: the flattened render arrays. -/
structure Buffers where
  positions : List ℚ
  colors : List ℚ
  thicknesses : List ℚ
  indices : List ℕ
  segmentTrackIds : List ℕ
deriving DecidableEq, Repr

/-- The reset `webGLTrackBuffers = { positions: [], ... }`. -/
def emptyBuffers : Buffers := ⟨[], [], [], [], []⟩

/-- The inner `segmentsWithOverlap.forEach` body of `prepareDataForWebGL`:
push the two vertices of one segment (positions, duplicated color and
thickness, a fresh index pair, the owning Strava track id), advancing
`currentIndex` by 2. -/
def pushSegment (tid : ℕ) (acc : Buffers × ℕ) (s : Seg) : Buffers × ℕ :=
  let style := segmentStyle s.overlapCount
  (⟨acc.1.positions ++ [s.p1.x, s.p1.y, s.p2.x, s.p2.y],
    acc.1.colors ++ [style.2.1, style.2.2.1, style.2.2.2,
                     style.2.1, style.2.2.1, style.2.2.2],
    acc.1.thicknesses ++ [style.1, style.1],
    acc.1.indices ++ [acc.2, acc.2 + 1],
    acc.1.segmentTrackIds ++ [tid, tid]⟩,
   acc.2 + 2)

/-- The outer `allTracksData.forEach` body of `prepareDataForWebGL`: skip
the whole track when its activity type is not active in the filter map
(a type absent from the JS object reads as undefined, i.e. inactive),
otherwise push all its classified segments. -/
def prepareTrack (filters : String → Bool) (acc : Buffers × ℕ)
    (t : TrackData) : Buffers × ℕ :=
  if filters t.type then t.segmentsWithOverlap.foldl (pushSegment t.id) acc
  else acc

/-- `prepareDataForWebGL()`: rebuild the flattened buffers from the
classified tracks and the current activity-type filters. -/
def prepareDataForWebGL (tracks : List TrackData)
    (filters : String → Bool) : Buffers :=
  (tracks.foldl (prepareTrack filters) (emptyBuffers, 0)).1

/-- The engine state the filter toggles act on. -/
structure EngineState where
  tracks : List TrackData
  grid : Grid
  filters : String → Bool
  buffers : Buffers

/-- The checkbox change handler of `updateActivityToggles`:
`activeActivityFilters[type] = checked; prepareDataForWebGL();` — it
updates the filter map and rebuilds the buffers, touching neither
`allTracksData` (with its stored `segmentsWithOverlap`) nor
`pointPresenceGrid`. -/
def setFilter (st : EngineState) (ty0 : String) (enabled : Bool) :
    EngineState :=
  { st with
    filters := fun ty => if ty = ty0 then enabled else st.filters ty,
    buffers := prepareDataForWebGL st.tracks
      fun ty => if ty = ty0 then enabled else st.filters ty }

/-- Tracks whose type the filter map deactivates contribute nothing to the
buffer fold: the fold over all tracks equals the fold over the tracks of
the other types. -/
theorem prepare_foldl_filter (f : String → Bool) (ty0 : String)
    (hf : f ty0 = false) (tracks : List TrackData) :
    ∀ acc, tracks.foldl (prepareTrack f) acc =
      (tracks.filter fun t => t.type ≠ ty0).foldl (prepareTrack f) acc := by
  induction tracks with
  | nil => intro acc; rfl
  | cons t rest ih =>
    intro acc
    by_cases hty : t.type = ty0
    · have hskip : prepareTrack f acc t = acc := by
        unfold prepareTrack
        rw [hty, hf]
        simp
      rw [List.foldl_cons, hskip, List.filter_cons, if_neg (by simp [hty])]
      exact ih acc
    · rw [List.foldl_cons, List.filter_cons, if_pos (by simp [hty]),
        List.foldl_cons]
      exact ih (prepareTrack f acc t)

/-- C8: disabling an activity type only changes visibility: the stored
tracks (and so every stored per-segment `overlapCount`) and the overlap
grid are untouched, and the rebuilt buffers equal the buffers built from
the track list with that type's tracks removed — the exact removal of that
type's segments, with no re-query of the overlap index. -/
theorem setFilter_rebuilds_buffers_without_reclassification
    (st : EngineState) (ty0 : String) :
    (setFilter st ty0 false).tracks = st.tracks ∧
    (setFilter st ty0 false).grid = st.grid ∧
    (setFilter st ty0 false).buffers =
      prepareDataForWebGL (st.tracks.filter fun t => t.type ≠ ty0)
        (fun ty => if ty = ty0 then false else st.filters ty) := by
  refine ⟨rfl, rfl, ?_⟩
  show prepareDataForWebGL st.tracks
      (fun ty => if ty = ty0 then false else st.filters ty) = _
  unfold prepareDataForWebGL
  rw [prepare_foldl_filter (fun ty => if ty = ty0 then false else st.filters ty)
    ty0 (by simp) st.tracks]

/-! ### Claims C7 and C10: the picker -/

/-- The unclamped projection parameter of `distancePointToSegment`:
`t = ((p.x - a.x)*(b.x - a.x) + (p.y - a.y)*(b.y - a.y)) / l2`. -/
def projT (p a b : Pt) : ℚ :=
  ((p.x - a.x) * (b.x - a.x) + (p.y - a.y) * (b.y - a.y)) /
    ((a.x - b.x) ^ 2 + (a.y - b.y) ^ 2)

/-- `t = Math.max(0, Math.min(1, t))`. -/
def clamp01 (t : ℚ) : ℚ := max 0 (min 1 t)

/-- `distancePointToSegment(p, a, b)`, squared. The source returns
`Math.sqrt` of this value; all the picker does with it is compare it to
the tolerance and to the best distance so far, and `sqrt` is strictly
monotone on nonnegatives, so the squared embedding preserves every
comparison. The `l2 === 0` guard branch is kept exactly. -/
def distancePointToSegmentSq (p a b : Pt) : ℚ :=
  if (a.x - b.x) ^ 2 + (a.y - b.y) ^ 2 = 0 then
    (p.x - a.x) ^ 2 + (p.y - a.y) ^ 2
  else
    (p.x - (a.x + clamp01 (projT p a b) * (b.x - a.x))) ^ 2 +
      (p.y - (a.y + clamp01 (projT p a b) * (b.y - a.y))) ^ 2

/-- C10: the distance function is total on degenerate segments: when the
two endpoints coincide (`l2 = 0`), it returns the (squared) Euclidean
distance from the query point to that endpoint, without dividing by `l2`. -/
theorem distancePointToSegment_degenerate_total (p a b : Pt)
    (h : (a.x - b.x) ^ 2 + (a.y - b.y) ^ 2 = 0) :
    distancePointToSegmentSq p a b = (p.x - a.x) ^ 2 + (p.y - a.y) ^ 2 := by
  unfold distancePointToSegmentSq
  rw [if_pos h]

/-- Witness for C10 on the zero-length segment at `(1,1)`. -/
theorem distancePointToSegment_degenerate_total_witness :
    (((⟨1, 1⟩ : Pt).x - (⟨1, 1⟩ : Pt).x) ^ 2 +
      ((⟨1, 1⟩ : Pt).y - (⟨1, 1⟩ : Pt).y) ^ 2 = 0) ∧
    distancePointToSegmentSq ⟨3, 4⟩ ⟨1, 1⟩ ⟨1, 1⟩ =
      ((⟨3, 4⟩ : Pt).x - (⟨1, 1⟩ : Pt).x) ^ 2 +
        ((⟨3, 4⟩ : Pt).y - (⟨1, 1⟩ : Pt).y) ^ 2 := by
  have h : ((⟨1, 1⟩ : Pt).x - (⟨1, 1⟩ : Pt).x) ^ 2 +
      ((⟨1, 1⟩ : Pt).y - (⟨1, 1⟩ : Pt).y) ^ 2 = 0 := by norm_num
  exact ⟨h, distancePointToSegment_degenerate_total ⟨3, 4⟩ ⟨1, 1⟩ ⟨1, 1⟩ h⟩

/-- The squared distance is nonnegative (both branches are sums of
squares). -/
theorem distancePointToSegmentSq_nonneg (p a b : Pt) :
    0 ≤ distancePointToSegmentSq p a b := by
  unfold distancePointToSegmentSq
  split_ifs
  · positivity
  · positivity

/-- The squared distance from a segment's midpoint to the segment is 0. -/
theorem distancePointToSegmentSq_midpoint (a b : Pt) :
    distancePointToSegmentSq (midpointOf a b) a b = 0 := by
  unfold distancePointToSegmentSq
  by_cases h : (a.x - b.x) ^ 2 + (a.y - b.y) ^ 2 = 0
  · rw [if_pos h]
    have hx : a.x = b.x := by nlinarith [sq_nonneg (a.x - b.x), sq_nonneg (a.y - b.y)]
    have hy : a.y = b.y := by nlinarith [sq_nonneg (a.x - b.x), sq_nonneg (a.y - b.y)]
    unfold midpointOf
    rw [show ((⟨(a.x + b.x) / 2, (a.y + b.y) / 2⟩ : Pt).x) = (a.x + b.x) / 2 from rfl,
      show ((⟨(a.x + b.x) / 2, (a.y + b.y) / 2⟩ : Pt).y) = (a.y + b.y) / 2 from rfl,
      hx, hy]
    ring
  · rw [if_neg h]
    have ht : projT (midpointOf a b) a b = 1 / 2 := by
      unfold projT midpointOf
      rw [div_eq_iff h]
      ring
    have hc : clamp01 (1 / 2 : ℚ) = 1 / 2 := by
      unfold clamp01
      norm_num
    rw [ht, hc]
    unfold midpointOf
    ring_nf

/-- One rendered segment as read back from the flat buffers by one
iteration of the picker's `for` loop: positions at the index pair and the
owning Strava track id at the first vertex. -/
structure RSeg where
  p1 : Pt
  p2 : Pt
  trackId : ℕ
deriving DecidableEq, Repr

/-- The visibility test of the picker loop:
`if (trackMeta && !activeActivityFilters[trackMeta.type]) continue;` —
a segment is skipped only when metadata for its track exists and its type
is inactive. -/
def visibleSeg (meta : ℕ → Option String) (filters : String → Bool)
    (s : RSeg) : Bool :=
  match meta s.trackId with
  | some ty => filters ty
  | none => true

/-- One iteration of the picker loop:
`if (dist < sensitivityInWorld && dist < bestMatch.distance) bestMatch = {trackId, dist}`,
with `bestMatch` starting as `{trackId: null, distance: Infinity}` embedded
as `none`. -/
def pickStep (meta : ℕ → Option String) (filters : String → Bool)
    (click : Pt) (tolSq : ℚ) (best : Option (ℕ × ℚ)) (s : RSeg) :
    Option (ℕ × ℚ) :=
  if visibleSeg meta filters s then
    match best with
    | none =>
        if distancePointToSegmentSq click s.p1 s.p2 < tolSq then
          some (s.trackId, distancePointToSegmentSq click s.p1 s.p2)
        else none
    | some (tid, bd) =>
        if distancePointToSegmentSq click s.p1 s.p2 < tolSq ∧
            distancePointToSegmentSq click s.p1 s.p2 < bd then
          some (s.trackId, distancePointToSegmentSq click s.p1 s.p2)
        else some (tid, bd)
  else best

/-- The picker's whole `for` loop over the rendered segments. -/
def pickBest (meta : ℕ → Option String) (filters : String → Bool)
    (click : Pt) (tolSq : ℚ) (segs : List RSeg) : Option (ℕ × ℚ) :=
  segs.foldl (pickStep meta filters click tolSq) none

/-- `handleCanvasClickForPopup`: convert the click to world space, set the
world tolerance to `CLICK_SENSITIVITY_PIXELS / scale` (squared here, to
match the squared distances), scan the segments, and return the best
track id if any qualified. -/
def handleCanvasClickForPopup (v : ViewState) (meta : ℕ → Option String)
    (filters : String → Bool) (segs : List RSeg) (sx sy : ℚ) : Option ℕ :=
  (pickBest meta filters (screenToWorld v ⟨sx, sy⟩)
      ((CLICK_SENSITIVITY_PIXELS / v.scale) ^ 2) segs).map Prod.fst

/-- A segment qualifies for picking: visible under the filters, and its
(squared) distance to the click is strictly below the (squared)
tolerance. -/
def QualSeg (meta : ℕ → Option String) (filters : String → Bool)
    (click : Pt) (tolSq : ℚ) (s : RSeg) : Prop :=
  visibleSeg meta filters s = true ∧
    distancePointToSegmentSq click s.p1 s.p2 < tolSq

/-- Loop invariant of the picker scan over a processed prefix `pre`:
`none` means no qualifying segment yet; `some (tid, bd)` is the first
qualifying segment of minimal distance (strictly smaller than every earlier
qualifying one, no larger than every later one). -/
def PickInv (meta : ℕ → Option String) (filters : String → Bool)
    (click : Pt) (tolSq : ℚ) (pre : List RSeg) (r : Option (ℕ × ℚ)) : Prop :=
  (r = none → ∀ s ∈ pre, ¬ QualSeg meta filters click tolSq s) ∧
  (∀ tid bd, r = some (tid, bd) →
    ∃ l₁ s l₂, pre = l₁ ++ s :: l₂ ∧ QualSeg meta filters click tolSq s ∧
      s.trackId = tid ∧ distancePointToSegmentSq click s.p1 s.p2 = bd ∧
      (∀ u ∈ l₁, QualSeg meta filters click tolSq u →
        bd < distancePointToSegmentSq click u.p1 u.p2) ∧
      (∀ u ∈ l₂, QualSeg meta filters click tolSq u →
        bd ≤ distancePointToSegmentSq click u.p1 u.p2))

/-- One picker iteration preserves the loop invariant. -/
theorem pickStep_inv (meta : ℕ → Option String) (filters : String → Bool)
    (click : Pt) (tolSq : ℚ) (pre : List RSeg) (r : Option (ℕ × ℚ))
    (s : RSeg) (h : PickInv meta filters click tolSq pre r) :
    PickInv meta filters click tolSq (pre ++ [s])
      (pickStep meta filters click tolSq r s) := by
  unfold pickStep
  by_cases hvis : visibleSeg meta filters s = true
  · rw [if_pos hvis]
    rcases r with _ | ⟨tid, bd⟩
    · by_cases hd : distancePointToSegmentSq click s.p1 s.p2 < tolSq
      · rw [if_pos hd]
        constructor
        · intro hcontra; exact absurd hcontra (by simp)
        · intro tid' bd' hsome
          rw [Option.some_inj] at hsome
          injection hsome with h1 h2
          refine ⟨pre, s, [], rfl, ⟨hvis, hd⟩, h1, h2, ?_, ?_⟩
          · intro u hu hq
            exact absurd hq (h.1 rfl u hu)
          · intro u hu; exact absurd hu (List.not_mem_nil u)
      · rw [if_neg hd]
        constructor
        · intro _ u hu
          rcases List.mem_append.1 hu with hu' | hu'
          · exact h.1 rfl u hu'
          · rw [List.mem_singleton] at hu'
            subst hu'
            intro hq
            exact hd hq.2
        · intro tid' bd' hsome; exact absurd hsome (by simp)
    · show PickInv meta filters click tolSq (pre ++ [s])
        (if distancePointToSegmentSq click s.p1 s.p2 < tolSq ∧
            distancePointToSegmentSq click s.p1 s.p2 < bd then
          some (s.trackId, distancePointToSegmentSq click s.p1 s.p2)
        else some (tid, bd))
      by_cases hd : distancePointToSegmentSq click s.p1 s.p2 < tolSq ∧
          distancePointToSegmentSq click s.p1 s.p2 < bd
      · rw [if_pos hd]
        constructor
        · intro hcontra; exact absurd hcontra (by simp)
        · intro tid' bd' hsome
          rw [Option.some_inj] at hsome
          injection hsome with h1 h2
          rw [← h1, ← h2]
          refine ⟨pre, s, [], rfl, ⟨hvis, hd.1⟩, rfl, rfl, ?_, ?_⟩
          · intro u hu hq
            rcases h.2 tid bd rfl with ⟨l₁, w, l₂, hpre, hqw, _, hdw, hl₁, hl₂⟩
            rw [hpre] at hu
            rcases List.mem_append.1 hu with hu' | hu'
            · exact lt_trans hd.2 (hl₁ u hu' hq)
            · rcases List.mem_cons.1 hu' with rfl | hu''
              · rw [hdw]; exact hd.2
              · exact lt_of_lt_of_le hd.2 (hl₂ u hu'' hq)
          · intro u hu; exact absurd hu (List.not_mem_nil u)
      · rw [if_neg hd]
        constructor
        · intro hcontra; exact absurd hcontra (by simp)
        · intro tid' bd' hsome
          rw [Option.some_inj] at hsome
          injection hsome with h1 h2
          rw [← h1, ← h2]
          rcases h.2 tid bd rfl with ⟨l₁, w, l₂, hpre, hqw, hid, hdw, hl₁, hl₂⟩
          refine ⟨l₁, w, l₂ ++ [s], by rw [hpre, List.append_assoc, List.cons_append],
            hqw, hid, hdw, hl₁, ?_⟩
          intro u hu hq
          rcases List.mem_append.1 hu with hu' | hu'
          · exact hl₂ u hu' hq
          · rw [List.mem_singleton] at hu'
            subst hu'
            by_contra hlt
            push_neg at hlt
            exact hd ⟨hq.2, hlt⟩
  · rw [if_neg hvis]
    constructor
    · intro hr u hu
      rcases List.mem_append.1 hu with hu' | hu'
      · exact h.1 hr u hu'
      · rw [List.mem_singleton] at hu'
        subst hu'
        intro hq
        exact hvis hq.1
    · intro tid bd hsome
      rcases h.2 tid bd hsome with ⟨l₁, w, l₂, hpre, hqw, hid, hdw, hl₁, hl₂⟩
      refine ⟨l₁, w, l₂ ++ [s], by rw [hpre, List.append_assoc, List.cons_append],
        hqw, hid, hdw, hl₁, ?_⟩
      intro u hu hq
      rcases List.mem_append.1 hu with hu' | hu'
      · exact hl₂ u hu' hq
      · rw [List.mem_singleton] at hu'
        subst hu'
        exact absurd hq.1 hvis

/-- The picker loop establishes the invariant over the whole list. -/
theorem pickFold_inv (meta : ℕ → Option String) (filters : String → Bool)
    (click : Pt) (tolSq : ℚ) :
    ∀ (rest pre : List RSeg) (r : Option (ℕ × ℚ)),
      PickInv meta filters click tolSq pre r →
      PickInv meta filters click tolSq (pre ++ rest)
        (rest.foldl (pickStep meta filters click tolSq) r) := by
  intro rest
  induction rest with
  | nil => intro pre r h; rw [List.append_nil]; exact h
  | cons s rest ih =>
    intro pre r h
    have h' := pickStep_inv meta filters click tolSq pre r s h
    have h'' := ih (pre ++ [s]) (pickStep meta filters click tolSq r s) h'
    rw [List.append_assoc] at h''
    exact h''

/-- The invariant holds for `pickBest` over the whole segment list. -/
theorem pickBest_inv (meta : ℕ → Option String) (filters : String → Bool)
    (click : Pt) (tolSq : ℚ) (segs : List RSeg) :
    PickInv meta filters click tolSq segs
      (pickBest meta filters click tolSq segs) := by
  have hbase : PickInv meta filters click tolSq [] none := by
    constructor
    · intro _ u hu; exact absurd hu (List.not_mem_nil u)
    · intro tid bd hsome; exact absurd hsome (by simp)
  have h := pickFold_inv meta filters click tolSq segs [] none hbase
  rw [List.nil_append] at h
  exact h

/-- The picking contract of claim C7, for a click at screen position
`(sx, sy)`: (1) no track is returned exactly when no visible segment is
strictly within tolerance of the click's world position; (2) a returned
track id belongs to a visible in-tolerance segment of minimal distance,
strictly closer than every earlier qualifying segment (first-encountered
tie-break) and no farther than every later one; (3) a click exactly at a
visible segment's midpoint returns the id of a visible segment at distance
zero (that segment, or an exactly overlapping candidate). -/
def PickerSpec (v : ViewState) (meta : ℕ → Option String)
    (filters : String → Bool) (segs : List RSeg) (sx sy : ℚ) : Prop :=
  (handleCanvasClickForPopup v meta filters segs sx sy = none ↔
    ∀ s ∈ segs, ¬ QualSeg meta filters (screenToWorld v ⟨sx, sy⟩)
      ((CLICK_SENSITIVITY_PIXELS / v.scale) ^ 2) s) ∧
  (∀ tid, handleCanvasClickForPopup v meta filters segs sx sy = some tid →
    ∃ l₁ s l₂, segs = l₁ ++ s :: l₂ ∧
      QualSeg meta filters (screenToWorld v ⟨sx, sy⟩)
        ((CLICK_SENSITIVITY_PIXELS / v.scale) ^ 2) s ∧
      s.trackId = tid ∧
      (∀ u ∈ l₁, QualSeg meta filters (screenToWorld v ⟨sx, sy⟩)
          ((CLICK_SENSITIVITY_PIXELS / v.scale) ^ 2) u →
        distancePointToSegmentSq (screenToWorld v ⟨sx, sy⟩) s.p1 s.p2 <
          distancePointToSegmentSq (screenToWorld v ⟨sx, sy⟩) u.p1 u.p2) ∧
      (∀ u ∈ l₂, QualSeg meta filters (screenToWorld v ⟨sx, sy⟩)
          ((CLICK_SENSITIVITY_PIXELS / v.scale) ^ 2) u →
        distancePointToSegmentSq (screenToWorld v ⟨sx, sy⟩) s.p1 s.p2 ≤
          distancePointToSegmentSq (screenToWorld v ⟨sx, sy⟩) u.p1 u.p2)) ∧
  (∀ s0 ∈ segs, visibleSeg meta filters s0 = true →
    screenToWorld v ⟨sx, sy⟩ = midpointOf s0.p1 s0.p2 →
    ∃ tid, handleCanvasClickForPopup v meta filters segs sx sy = some tid ∧
      ∃ s ∈ segs, visibleSeg meta filters s = true ∧ s.trackId = tid ∧
        distancePointToSegmentSq (screenToWorld v ⟨sx, sy⟩) s.p1 s.p2 = 0)

/-- C7: the picker converts the click to world space, uses the
scale-dependent tolerance `CLICK_SENSITIVITY_PIXELS / scale`, skips
filtered-out segments, and selects the minimal-distance segment strictly
below tolerance with first-encountered tie-break; in particular a click at
a visible segment's midpoint picks a distance-zero candidate. -/
theorem picker_selects_min_distance_below_tolerance
    (v : ViewState) (meta : ℕ → Option String) (filters : String → Bool)
    (segs : List RSeg) (sx sy : ℚ) (hscale : 0 < v.scale) :
    PickerSpec v meta filters segs sx sy := by
  set click := screenToWorld v ⟨sx, sy⟩ with hclick
  set tolSq := (CLICK_SENSITIVITY_PIXELS / v.scale) ^ 2 with htolSq
  have hinv := pickBest_inv meta filters click tolSq segs
  refine ⟨⟨?_, ?_⟩, ?_, ?_⟩
  · intro hnone s hs
    have hres : pickBest meta filters click tolSq segs = none := by
      unfold handleCanvasClickForPopup at hnone
      exact Option.map_eq_none'.1 hnone
    exact hinv.1 hres s hs
  · intro hall
    rcases hres : pickBest meta filters click tolSq segs with _ | ⟨tid, bd⟩
    · unfold handleCanvasClickForPopup
      rw [← hclick, ← htolSq, hres]
      rfl
    · exfalso
      rcases hinv.2 tid bd hres with ⟨l₁, s, l₂, hsegs, hq, _⟩
      refine hall s ?_ hq
      rw [hsegs]
      exact List.mem_append_right _ (List.mem_cons_self _ _)
  · intro tid hsome
    unfold handleCanvasClickForPopup at hsome
    rw [← hclick, ← htolSq] at hsome
    rcases Option.map_eq_some'.1 hsome with ⟨⟨tid2, bd⟩, hres, hfst⟩
    rcases hinv.2 tid2 bd hres with ⟨l₁, s, l₂, hsegs, hq, hsid, hdist, hl₁, hl₂⟩
    refine ⟨l₁, s, l₂, hsegs, hq, by rw [hsid]; exact hfst, ?_, ?_⟩
    · intro u hu hqu
      rw [hdist]
      exact hl₁ u hu hqu
    · intro u hu hqu
      rw [hdist]
      exact hl₂ u hu hqu
  · intro s0 hs0 hvis0 hmid
    have htol : 0 < tolSq := by
      rw [htolSq]
      have hpos : 0 < CLICK_SENSITIVITY_PIXELS / v.scale :=
        div_pos (by norm_num [CLICK_SENSITIVITY_PIXELS]) hscale
      positivity
    have hd0 : distancePointToSegmentSq click s0.p1 s0.p2 = 0 := by
      rw [hclick, hmid, distancePointToSegmentSq_midpoint]
    have hq0 : QualSeg meta filters click tolSq s0 :=
      ⟨hvis0, by rw [hd0]; exact htol⟩
    rcases hres : pickBest meta filters click tolSq segs with _ | ⟨tid, bd⟩
    · exact absurd hq0 (hinv.1 hres s0 hs0)
    · rcases hinv.2 tid bd hres with ⟨l₁, s, l₂, hsegs, hq, hsid, hdist, hl₁, hl₂⟩
      have hbdnn : 0 ≤ bd := by
        rw [← hdist]
        exact distancePointToSegmentSq_nonneg click s.p1 s.p2
      have hs0' : s0 ∈ l₁ ++ s :: l₂ := by rw [← hsegs]; exact hs0
      have hbd0 : bd = 0 := by
        rcases List.mem_append.1 hs0' with h01 | h02
        · have hlt := hl₁ s0 h01 hq0
          rw [hd0] at hlt
          linarith
        · rcases List.mem_cons.1 h02 with heq | h03
          · rw [← hdist, ← heq, hd0]
          · have hle := hl₂ s0 h03 hq0
            rw [hd0] at hle
            linarith
      refine ⟨tid, ?_, s, ?_, hq.1, hsid, ?_⟩
      · unfold handleCanvasClickForPopup
        rw [← hclick, ← htolSq, hres]
        rfl
      · rw [hsegs]
        exact List.mem_append_right _ (List.mem_cons_self _ _)
      · rw [hdist, hbd0]

/-- Witness for C7: one visible segment from `(0,0)` to `(2,0)`, clicked at
its midpoint `(1,0)` under the identity view. -/
theorem picker_selects_min_distance_below_tolerance_witness :
    (0 : ℚ) < (⟨1, 0, 0⟩ : ViewState).scale ∧
      PickerSpec ⟨1, 0, 0⟩ (fun _ => none) (fun _ => true)
        [⟨⟨0, 0⟩, ⟨2, 0⟩, 7⟩] 1 0 :=
  ⟨by norm_num,
   picker_selects_min_distance_below_tolerance ⟨1, 0, 0⟩ (fun _ => none)
     (fun _ => true) [⟨⟨0, 0⟩, ⟨2, 0⟩, 7⟩] 1 0 (by norm_num)⟩

/-! ### Claim C9: per-activity failure isolation on load -/

/-- The outcome of one activity's stream fetch inside the load handler's
`streamPromises`: the fetch rejected or returned non-ok (caught, logged,
`null`), the response had no `latlng` stream data (`null`), or it delivered
latlng points. -/
inductive FetchResult where
  | fetchFailed
  | noLatLng
  | ok (latlng : List LatLng)
deriving DecidableEq, Repr

/-- One activity of a load batch: its summary, whether it carries a
`map.summary_polyline` (activities without one are skipped before any
fetch), and its stream fetch outcome. -/
structure BatchEntry where
  info : ActivityInfo
  hasPolyline : Bool
  fetch : FetchResult
deriving DecidableEq, Repr

/-- One `streamPromises` entry resolving: `null` for a missing polyline, a
failed fetch or missing latlng data, otherwise the activity with its latlng
stream. -/
def resolveStream (e : BatchEntry) : Option StreamData :=
  if e.hasPolyline then
    match e.fetch with
    | .fetchFailed => none
    | .noLatLng => none
    | .ok l => some ⟨e.info, l⟩
  else none

/-- The load handler after all stream promises settle:
`const resolvedStreams = (await Promise.all(streamPromises)).filter(s => s !== null);`
followed by the processing pipeline. -/
def loadActivities (batch : List BatchEntry) : List TrackData × Grid :=
  loadDataset (batch.map resolveStream).reduceOption

/-- Whether a fetch outcome delivered latlng data at all. -/
def FetchResult.deliveredLatLng : FetchResult → Bool
  | .ok _ => true
  | _ => false

/-- Whether a fetch outcome delivered a usable latlng stream: at least two
points (shorter streams are dropped by `processStravaData`). -/
def FetchResult.usable : FetchResult → Bool
  | .ok l => 2 ≤ l.length
  | _ => false

/-- The ids of the activities whose fetches succeeded with latlng data, as
claim C9 words it. -/
def succeededWithLatLngIds (batch : List BatchEntry) : List ℕ :=
  (batch.filter fun e => e.hasPolyline && e.fetch.deliveredLatLng).map
    fun e => e.info.id

/-- The ids of the activities whose fetches succeeded with a usable
(≥ 2 points) latlng stream. -/
def usableStreamIds (batch : List BatchEntry) : List ℕ :=
  (batch.filter fun e => e.hasPolyline && e.fetch.usable).map
    fun e => e.info.id

/-- A batch of one activity whose fetch succeeds with a single-point latlng
stream. -/
def cexBatch : List BatchEntry :=
  [⟨⟨1, "run"⟩, true, .ok [⟨0, 0⟩]⟩]

/-- Counterexample to C9 as stated: on `cexBatch` the fetch of activity 1
succeeds with latlng data, yet the load produces no track for it (its
stream has fewer than 2 points), so the produced tracks are not exactly
the activities whose fetches succeeded with latlng data. -/
theorem load_isolation_counterexample :
    (loadActivities cexBatch).1.map TrackData.id ≠
        succeededWithLatLngIds cexBatch ∧
      succeededWithLatLngIds cexBatch = [1] ∧
      (loadActivities cexBatch).1.map TrackData.id = [] := by
  refine ⟨?_, ?_, ?_⟩ <;> with_unfolding_all decide

/-- `calculateAllSegmentOverlaps` does not change the Strava ids of the
track list. -/
theorem calculateAllSegmentOverlaps_map_id (g : Grid)
    (tracks : List TrackData) :
    (calculateAllSegmentOverlaps g tracks).map TrackData.id =
      tracks.map TrackData.id := by
  unfold calculateAllSegmentOverlaps
  rw [List.map_map]
  apply List.map_congr_left
  intro t _
  by_cases hlen : t.translatedPoints.length < 2
  · simp [hlen]
  · simp [hlen]

/-- The track list built by `processStravaData`'s loop carries exactly the
ids of the streams with at least 2 points, in order. -/
theorem processFrom_map_id (arr : List StreamData) :
    ∀ (idx : ℕ) (acc : List TrackData × Grid),
      (processFrom idx acc arr).1.map TrackData.id =
        acc.1.map TrackData.id ++
          (arr.filter fun sd => 2 ≤ sd.latlngStream.length).map
            fun sd => sd.activityInfo.id := by
  induction arr with
  | nil => intro idx acc; simp [processFrom]
  | cons sd rest ih =>
    intro idx acc
    show (processFrom (idx + 1) (processOne idx acc sd) rest).1.map TrackData.id = _
    rw [ih (idx + 1) (processOne idx acc sd)]
    unfold processOne
    by_cases hskip : sd.latlngStream.length < 2
    · rw [if_pos hskip, List.filter_cons,
        if_neg (by simp; omega)]
    · rw [if_neg hskip, List.filter_cons, if_pos (by simp; omega)]
      simp [List.map_append, List.append_assoc]

/-- Filtering the resolved streams for usable length matches filtering the
batch for polyline-carrying, usable fetches. -/
theorem resolved_filter_ids (batch : List BatchEntry) :
    ((batch.map resolveStream).reduceOption.filter
        fun sd => 2 ≤ sd.latlngStream.length).map
          (fun sd => sd.activityInfo.id) =
      usableStreamIds batch := by
  induction batch with
  | nil => rfl
  | cons e rest ih =>
    unfold usableStreamIds at ih ⊢
    rw [List.map_cons, List.filter_cons]
    by_cases hpoly : e.hasPolyline
    · rcases hfetch : e.fetch with _ | _ | l
      · have hres : resolveStream e = none := by
          unfold resolveStream; rw [if_pos hpoly, hfetch]
        rw [hres, List.reduceOption_cons_of_none,
          if_neg (by simp [hfetch, FetchResult.usable]), ih]
      · have hres : resolveStream e = none := by
          unfold resolveStream; rw [if_pos hpoly, hfetch]
        rw [hres, List.reduceOption_cons_of_none,
          if_neg (by simp [hfetch, FetchResult.usable]), ih]
      · have hres : resolveStream e = some ⟨e.info, l⟩ := by
          unfold resolveStream; rw [if_pos hpoly, hfetch]
        rw [hres, List.reduceOption_cons_of_some, List.filter_cons]
        by_cases hlen : 2 ≤ l.length
        · rw [if_pos (by simpa using hlen),
            if_pos (by simp [hfetch, FetchResult.usable, hpoly, hlen]),
            List.map_cons, List.map_cons, ih]
        · rw [if_neg (by simpa using hlen),
            if_neg (by simp [hfetch, FetchResult.usable, hpoly, hlen]), ih]
    · have hres : resolveStream e = none := by
        unfold resolveStream; rw [if_neg hpoly]
      rw [hres, List.reduceOption_cons_of_none,
        if_neg (by simp [hpoly]), ih]

/-- C9 (amended): the load produces tracks for exactly the activities whose
stream fetches succeeded with a latlng stream of at least 2 points, in
batch order — a failed, malformed or short stream only drops that activity
and never disturbs the tracks of the others. -/
theorem load_produces_tracks_for_usable_streams (batch : List BatchEntry) :
    (loadActivities batch).1.map TrackData.id = usableStreamIds batch := by
  unfold loadActivities
  have h1 : (loadDataset (batch.map resolveStream).reduceOption).1 =
      calculateAllSegmentOverlaps
        (processStravaData (batch.map resolveStream).reduceOption).2
        (processStravaData (batch.map resolveStream).reduceOption).1 := rfl
  rw [h1, calculateAllSegmentOverlaps_map_id]
  have h2 := processFrom_map_id (batch.map resolveStream).reduceOption 0
    ([], emptyGrid)
  rw [show processStravaData (batch.map resolveStream).reduceOption =
    processFrom 0 ([], emptyGrid) (batch.map resolveStream).reduceOption
    from rfl, h2]
  rw [show (([], emptyGrid) : List TrackData × Grid).1.map TrackData.id = []
    from rfl, List.nil_append]
  exact resolved_filter_ids batch
